import Mathlib

/-!
Verification development for the spot-rl-example command-generation pipeline.

The Python sources are shallowly embedded below.  Floating-point values are
modelled as rationals (`ℚ`), Python dicts as association lists or total
functions, and protobuf messages as plain structures.  The generator's
per-invocation behaviour (`OnnxCommandGenerator.__call__`) is embedded as a
state-transition function `callStep` over an explicit `GenState`.
-/

namespace SpotRL

/-! ## Joint-name orderings

`ORDERED_JOINT_NAMES_SPOT_BASE` is built in `rl_deploy/spot/constants.py` by
sorting the `DOF` enum (values taken from the Boston Dynamics
`spot_constants_pb2` joint indices: fl 0-2, fr 3-5, hl 6-8, hr 9-11,
arm 12-18) and keeping the non-arm entries; the arm entries follow.
`ORDERED_JOINT_NAMES_BASE_ISAAC` is literal in
`rl_deploy/orbit/orbit_constants.py`. -/

def ORDERED_JOINT_NAMES_SPOT_BASE : List String :=
  ["fl_hx", "fl_hy", "fl_kn", "fr_hx", "fr_hy", "fr_kn",
   "hl_hx", "hl_hy", "hl_kn", "hr_hx", "hr_hy", "hr_kn"]

def ORDERED_JOINT_NAMES_SPOT_ARM : List String :=
  ["arm_sh0", "arm_sh1", "arm_el0", "arm_el1", "arm_wr0", "arm_wr1", "arm_f1x"]

def ORDERED_JOINT_NAMES_SPOT : List String :=
  ORDERED_JOINT_NAMES_SPOT_BASE ++ ORDERED_JOINT_NAMES_SPOT_ARM

def ORDERED_JOINT_NAMES_BASE_ISAAC : List String :=
  ["fl_hx", "fl_hy", "fl_kn", "hl_hx", "hl_hy", "hl_kn",
   "fr_hx", "fr_hy", "fr_kn", "hr_hx", "hr_hy", "hr_kn"]

/-! ## `rl_deploy.utils.dict_tools` (not among the available sources) -/

/-- Modelled from the spec: `rl_deploy/utils/dict_tools.py` is missing from
the sources.  §4.1 JointOrderingMap contract: "given an ordered sequence of N
names (source order) and another ordered sequence of the same N names (target
order), produce a permutation `perm` of length N such that
`target[i] = source[perm[i]]`". -/
def find_ordering (source target : List String) : List ℕ :=
  target.map (fun n => source.indexOf n)

/-- Modelled from the spec (§4.1): "Applying `perm` to any array indexed in
source order yields the equivalent array in target order", i.e.
`result[i] = arr[perm[i]]`.  Out-of-range indices (never produced for valid
orderings) default to `0`. -/
def reorder (arr : List ℚ) (ordering : List ℕ) : List ℚ :=
  ordering.map (fun i => arr.getD i 0)

/-- Modelled from the spec: `dict_to_list(d, names)` reads the per-joint map
`d` at each name of `names`, in order.  The spec's PolicyConfig invariant
("every recognized joint name has a non-null value") lets us model the joint
maps as total functions. -/
def dict_to_list (d : String → ℚ) (names : List String) : List ℚ :=
  names.map d

/-! ## Configuration (`OrbitConfig`, `python/orbit/orbit_configuration.py`) -/

structure OrbitConfig where
  kp : String → ℚ
  kd : String → ℚ
  default_joints : String → ℚ
  standing_height : ℚ
  action_scale : ℚ

/-! ## Soft-limit table (`rl_deploy/spot/constants.py`, `JOINT_SOFT_LIMITS`) -/

def JOINT_SOFT_LIMITS : List (String × ℚ × ℚ) :=
  [("fl_hx", 541525/1000000, 629967/1000000),
   ("fl_hy", 244991/1000000, 450403/1000000),
   ("fl_kn", 283921/1000000, 1),
   ("fr_hx", 667273/1000000, 500081/1000000),
   ("fr_hy", 217532/1000000, 357181/1000000),
   ("fr_kn", 425193/1000000, 1),
   ("hl_hx", 477865/1000000, 600584/1000000),
   ("hl_hy", 325119/1000000, 623534/1000000),
   ("hl_kn", 442601/1000000, 860269/1000000),
   ("hr_hx", 656397/1000000, 483916/1000000),
   ("hr_hy", 384144/1000000, 603661/1000000),
   ("hr_kn", 195063/1000000, 865289/1000000)]

/-! ## `OnnxCommandGenerator._generate_safe_limits` -/

/-- The per-joint computation of `_generate_safe_limits`
(`onnx_command_generator.py` lines 119-126). -/
def safe_entry (lower upper min_margin max_margin : ℚ) : ℚ × ℚ :=
  let middle := (lower + upper) / 2
  let full_range := upper - lower
  (middle - min_margin * full_range / 2, middle + max_margin * full_range / 2)

/-- `_generate_safe_limits`: iterate `JOINT_SOFT_LIMITS` in insertion order,
skipping joints absent from the hard-limit table `jointLimits`
(the parsed URDF limits, an external input to the constructor). -/
def generate_safe_limits (jointLimits : List (String × ℚ × ℚ)) :
    List (String × ℚ × ℚ) :=
  JOINT_SOFT_LIMITS.filterMap (fun e =>
    match jointLimits.lookup e.1 with
    | none => none
    | some (lower, upper) =>
      some (e.1, safe_entry lower upper e.2.1 e.2.2))

/-! ## `OnnxCommandGenerator._check_safety`

Returns `true` when the safety stop triggers.  The positions map is a
Python dict; we model it as `String → Option ℚ` (`dict.get` semantics). -/

def check_safety (safeLimits : List (String × ℚ × ℚ)) (m : String → Option ℚ) :
    Bool :=
  match safeLimits with
  | [] => false
  | (name, safe_min, safe_max) :: rest =>
    match m name with
    | none => true
    | some v => if v < safe_min ∨ v > safe_max then true else check_safety rest m

/-- `current_positions_map = dict(zip(ORDERED_JOINT_NAMES_SPOT, positions))`
(`__call__`, lines 159-164). -/
def current_positions_map (positions : List ℚ) : String → Option ℚ :=
  fun name => (ORDERED_JOINT_NAMES_SPOT.zip positions).lookup name

/-! ## Sensor snapshot and shared controller context

`RobotStateStreamResponse.joint_states` carries position/velocity/load lists
and an acquisition timestamp.  The base-velocity / gravity observation blocks
are extracted by `rl_deploy/orbit/observations.py`, which is not among the
available sources; we carry the extracted values directly on the snapshot. -/

structure Snapshot where
  position : List ℚ
  velocity : List ℚ
  load : List ℚ
  acquisition_timestamp : ℚ
  base_lin_vel : List ℚ
  base_ang_vel : List ℚ
  projected_gravity : List ℚ
  deriving DecidableEq

/-- `OnnxControllerContext`: latest snapshot, operator velocity command and
the shared cycle counter (the `Event` wake signal is real-time plumbing
outside this model). -/
structure ContextModel where
  latest_state : Snapshot
  velocity_cmd : List ℚ
  count : ℕ
  deriving DecidableEq

/-! ## Emitted command (`JointControlStreamRequest`)

Only the fields `create_proto` writes are modelled; the wall-clock request
timestamp is real-time and omitted.  `gains = none` models the gain fields
being absent from the message. -/

structure ProtoMsg where
  gains : Option (List ℚ × List ℚ)
  position : List ℚ
  velocity : List ℚ
  load : List ℚ
  end_time : ℚ
  extrapolation_nanos : ℤ
  user_command_key : ℕ
  deriving DecidableEq

/-! ## Generator state (`OnnxCommandGenerator.__init__`) -/

structure GenState where
  last_action : List ℚ
  count : ℕ
  init_pos : Option (List ℚ)
  init_load : Option (List ℚ)
  triggered_safety : Bool
  safety_proto : Option ProtoMsg
  deriving DecidableEq

/-- Field initialisation in `__init__` (lines 85-96). -/
def initGenState : GenState :=
  { last_action := List.replicate 12 0
    count := 1
    init_pos := none
    init_load := none
    triggered_safety := false
    safety_proto := none }

/-- `joints_offsets_ordered = dict_to_list(default_joints, ISAAC)` (line 91). -/
def joints_offsets_ordered (cfg : OrbitConfig) : List ℚ :=
  dict_to_list cfg.default_joints ORDERED_JOINT_NAMES_BASE_ISAAC

/-! ## Observation assembly (`collect_inputs`) -/

/-- Modelled from the spec: `rl_deploy/orbit/observations.py` is missing from
the sources.  §4.5: "joint positions in canonical policy order (N,
offset-relative)". -/
def get_joint_positions (snap : Snapshot) (cfg : OrbitConfig) : List ℚ :=
  List.zipWith (· - ·)
    (reorder snap.position
      (find_ordering ORDERED_JOINT_NAMES_SPOT ORDERED_JOINT_NAMES_BASE_ISAAC))
    (joints_offsets_ordered cfg)

/-- Modelled from the spec: `rl_deploy/orbit/observations.py` is missing.
§4.5: joint velocities in policy order. -/
def get_joint_velocity (snap : Snapshot) : List ℚ :=
  reorder snap.velocity
    (find_ordering ORDERED_JOINT_NAMES_SPOT ORDERED_JOINT_NAMES_BASE_ISAAC)

/-- `collect_inputs` (lines 231-250): concatenation of the observation
blocks; joint velocities scaled by `0.25`, last action by `0.20`. -/
def collect_inputs (cfg : OrbitConfig) (last_action : List ℚ)
    (ctx : ContextModel) : List ℚ :=
  ctx.latest_state.base_lin_vel ++ ctx.latest_state.base_ang_vel ++
  ctx.latest_state.projected_gravity ++ ctx.velocity_cmd ++
  get_joint_positions ctx.latest_state cfg ++
  (get_joint_velocity ctx.latest_state).map (fun i => i * (1/4)) ++
  last_action.map (fun i => i * (1/5))

/-! ## Action post-processing (`_post_process_action_to_spot`) -/

/-- `test_scale = min(0.1 * self._count, 1.0)` (line 216). -/
def rampScale (count : ℕ) : ℚ := min ((1/10) * (count : ℚ)) 1

/-- `_post_process_action_to_spot` (lines 213-229).  The Python
`map(mul, [s]*12, output)` zips a 12-element constant list against the
output, so it is `List.zipWith` against `List.replicate 12 _`. -/
def post_process_action_to_spot (cfg : OrbitConfig) (count : ℕ)
    (output : List ℚ) : List ℚ :=
  let test_scale := rampScale count
  let scaled_output :=
    List.zipWith (· * ·) (List.replicate 12 cfg.action_scale) output
  let test_scaled := List.zipWith (· * ·) (List.replicate 12 test_scale) scaled_output
  let shifted_output := List.zipWith (· + ·) test_scaled (joints_offsets_ordered cfg)
  reorder shifted_output
    (find_ordering ORDERED_JOINT_NAMES_BASE_ISAAC ORDERED_JOINT_NAMES_SPOT_BASE)

/-! ## Command emission (`create_proto`) -/

/-- `create_proto` (lines 252-296).  Gains are filled only when
`self._count == 1`; velocity and load feed-forward are zero; the end time is
the snapshot acquisition timestamp plus `0.1`; the user command key is the
generator's cycle counter. -/
def create_proto (cfg : OrbitConfig) (count : ℕ) (acquisition_timestamp : ℚ)
    (pos_command : List ℚ) : ProtoMsg :=
  { gains :=
      if count = 1 then
        some (dict_to_list cfg.kp ORDERED_JOINT_NAMES_SPOT_BASE,
              dict_to_list cfg.kd ORDERED_JOINT_NAMES_SPOT_BASE)
      else none
    position := pos_command
    velocity := List.replicate pos_command.length 0
    load := List.replicate pos_command.length 0
    end_time := acquisition_timestamp + 1/10
    extrapolation_nanos := 5000000
    user_command_key := count }

/-! ## The per-invocation step (`__call__`) -/

/-- The list comprehension `[current_positions_map[name] for name in names]`
(lines 171-173); a missing key raises `KeyError`, modelled by `none`. -/
def holdPosFrom (m : String → Option ℚ) : List String → Option (List ℚ)
  | [] => some []
  | n :: rest =>
    match m n with
    | none => none
    | some v =>
      match holdPosFrom m rest with
      | none => none
      | some vs => some (v :: vs)

def holdPos (m : String → Option ℚ) : Option (List ℚ) :=
  holdPosFrom m ORDERED_JOINT_NAMES_SPOT_BASE

/-- Lines 149-151 of `__call__`: cache the initial joint position and load
when the command stream starts (only when not yet cached). -/
def cacheInit (s : GenState) (ctx : ContextModel) : GenState :=
  if s.init_pos.isNone then
    { s with init_pos := some ctx.latest_state.position
             init_load := some ctx.latest_state.load }
  else s

/-- `OnnxCommandGenerator.__call__` (lines 142-189) as a state transition.
The inference backend (`_compute_action`) is a parameter `policy`; the
stored `_safe_limits` table is a parameter `safeLimits`.  Returns the
emitted proto, the successor generator state, and the successor shared
counter `context.count`; `none` models an uncaught Python exception. -/
def callStep (cfg : OrbitConfig) (safeLimits : List (String × ℚ × ℚ))
    (policy : List ℚ → List ℚ) (s : GenState) (ctx : ContextModel) :
    Option (ProtoMsg × GenState × ℕ) :=
  -- lines 149-151: cache initial joint position when the stream starts
  let s₁ := cacheInit s ctx
  -- lines 153-154: latched short-circuit
  match s₁.safety_proto with
  | some p => some (p, s₁, ctx.count)
  | none =>
    let input_list := collect_inputs cfg s₁.last_action ctx
    let m := current_positions_map ctx.latest_state.position
    -- line 167: the latch flag is (re)assigned from the check result
    let triggered := check_safety safeLimits m
    let s₂ := { s₁ with triggered_safety := triggered }
    if triggered then
      match holdPos m with
      | none => none
      | some hold_pos =>
        let proto :=
          create_proto cfg s₂.count ctx.latest_state.acquisition_timestamp hold_pos
        some (proto, { s₂ with safety_proto := some proto }, ctx.count)
    else
      let output := policy input_list
      let action := post_process_action_to_spot cfg s₂.count output
      let proto :=
        create_proto cfg s₂.count ctx.latest_state.acquisition_timestamp action
      some (proto,
        { s₂ with last_action := output, count := s₂.count + 1 },
        ctx.count + 1)

/-- Iterated invocations: one `callStep` per context in the list, threading
the generator state; the shared counter is per-invocation context data. -/
def runSteps (cfg : OrbitConfig) (safeLimits : List (String × ℚ × ℚ))
    (policy : List ℚ → List ℚ) :
    GenState → List ContextModel → Option (List ProtoMsg × GenState)
  | s, [] => some ([], s)
  | s, ctx :: rest =>
    match callStep cfg safeLimits policy s ctx with
    | none => none
    | some (p, s', _) =>
      match runSteps cfg safeLimits policy s' rest with
      | none => none
      | some (ps, sf) => some (p :: ps, sf)

/-! ## URDF hard-limit parsing (`rl_deploy/utils/urdf.py`)

A `<joint>` element with its optional `<limit>` child; attribute values that
parse as numbers are carried directly. -/

structure UrdfLimitTag where
  lower : Option ℚ
  upper : Option ℚ
  velocity : Option ℚ
  deriving DecidableEq

structure UrdfJoint where
  name : String
  limit : Option UrdfLimitTag
  deriving DecidableEq

/-- The loop body of `parse_urdf_limits` for one joint (lines 20-36).
Missing limit tag / `lower` / `upper` raise `ValueError`; a missing
`velocity` only warns.  When all validations pass, the code executes
`float(limit["lower"])`, which string-indexes an `xml.etree` `Element`
(whose `__getitem__` takes an integer child index) and raises `TypeError`
unconditionally. -/
def parse_joint (j : UrdfJoint) : Except String (String × ℚ × ℚ × ℚ) :=
  match j.limit with
  | none => .error "ValueError: joint has no limit tag"
  | some t =>
    match t.lower with
    | none => .error "ValueError: limit tag missing lower attribute"
    | some _ =>
      match t.upper with
      | none => .error "ValueError: limit tag missing upper attribute"
      | some _ =>
        .error "TypeError: list indices must be integers or slices, not str"

def parse_joints : List UrdfJoint → Except String (List (String × ℚ × ℚ × ℚ))
  | [] => .ok []
  | j :: rest =>
    match parse_joint j with
    | .error e => .error e
    | .ok entry =>
      match parse_joints rest with
      | .error e => .error e
      | .ok others => .ok (entry :: others)

/-- `parse_urdf_limits` (lines 5-41): a missing file returns `{}` after a
warning; any exception raised while parsing is caught by the blanket
`except`, printed, and `{}` is returned. -/
def parse_urdf_limits (fileExists : Bool) (joints : List UrdfJoint) :
    List (String × ℚ × ℚ × ℚ) :=
  if !fileExists then []
  else
    match parse_joints joints with
    | .ok limits => limits
    | .error _ => []

/-! ## Concrete fixtures (used by witnesses and counterexamples) -/

def cfg0 : OrbitConfig :=
  { kp := fun _ => 2
    kd := fun _ => 1
    default_joints := fun _ => 3
    standing_height := 0
    action_scale := 1 }

/-- A hard-limit table monitoring only `fl_hx`, with range `[-1, 1]`.  The
soft margins for `fl_hx` are `(0.541525, 0.629967)`, so the generated safe
range is `[-0.541525, 0.629967]`. -/
def jl0 : List (String × ℚ × ℚ) := [("fl_hx", -1, 1)]

def sl0 : List (String × ℚ × ℚ) := generate_safe_limits jl0

def snapSafe : Snapshot :=
  { position := List.replicate 19 0
    velocity := List.replicate 19 0
    load := List.replicate 19 0
    acquisition_timestamp := 0
    base_lin_vel := [0, 0, 0]
    base_ang_vel := [0, 0, 0]
    projected_gravity := [0, 0, -1] }

/-- `fl_hx` measured at `0.639967 = max_val + 0.01`, all other joints at 0. -/
def snapBad : Snapshot :=
  { snapSafe with position := 639967/1000000 :: List.replicate 18 0 }

def ctxSafe : ContextModel :=
  { latest_state := snapSafe, velocity_cmd := [0, 0, 0], count := 0 }

def ctxBad : ContextModel :=
  { latest_state := snapBad, velocity_cmd := [0, 0, 0], count := 0 }

def policy0 : List ℚ → List ℚ := fun _ => List.replicate 12 0

def pCached : ProtoMsg := create_proto cfg0 1 0 (List.replicate 12 0)

/-- A generator state that has already latched (cached terminal command
`pCached`, initial pose cached). -/
def sLatched : GenState :=
  { last_action := List.replicate 12 0
    count := 1
    init_pos := some (List.replicate 19 0)
    init_load := some (List.replicate 19 0)
    triggered_safety := true
    safety_proto := some pCached }

/-- A one-joint safe-limit table with integer bounds (kernel-evaluable). -/
def slInt : List (String × ℚ × ℚ) := [("fl_hx", 0, 1)]

/-- `fl_hx` measured at 2, violating `slInt`; all other joints at 0. -/
def snapHot : Snapshot :=
  { snapSafe with position := 2 :: List.replicate 18 0 }

def ctxHot : ContextModel :=
  { latest_state := snapHot, velocity_cmd := [0, 0, 0], count := 0 }

/-- A generator state that has completed one nominal cycle (count 2). -/
def sCount2 : GenState :=
  { initGenState with
      count := 2
      init_pos := some (List.replicate 19 0)
      init_load := some (List.replicate 19 0) }

/-! # Theorems -/

/-! ## Helper lemmas about `cacheInit` and the step function -/

@[simp]
theorem cacheInit_last_action (s : GenState) (ctx : ContextModel) :
    (cacheInit s ctx).last_action = s.last_action := by
  unfold cacheInit; split <;> rfl

@[simp]
theorem cacheInit_count (s : GenState) (ctx : ContextModel) :
    (cacheInit s ctx).count = s.count := by
  unfold cacheInit; split <;> rfl

@[simp]
theorem cacheInit_safety_proto (s : GenState) (ctx : ContextModel) :
    (cacheInit s ctx).safety_proto = s.safety_proto := by
  unfold cacheInit; split <;> rfl

@[simp]
theorem cacheInit_triggered (s : GenState) (ctx : ContextModel) :
    (cacheInit s ctx).triggered_safety = s.triggered_safety := by
  unfold cacheInit; split <;> rfl

theorem cacheInit_of_isSome {s : GenState} (ctx : ContextModel)
    (h : s.init_pos.isSome) : cacheInit s ctx = s := by
  unfold cacheInit
  have hn : s.init_pos.isNone = false := by
    cases h' : s.init_pos <;> simp_all
  simp [hn]

theorem callStep_latched (cfg : OrbitConfig) (sl : List (String × ℚ × ℚ))
    (policy : List ℚ → List ℚ) (s : GenState) (ctx : ContextModel)
    (p : ProtoMsg) (hp : s.safety_proto = some p) (hi : s.init_pos.isSome) :
    callStep cfg sl policy s ctx = some (p, s, ctx.count) := by
  unfold callStep
  rw [cacheInit_of_isSome ctx hi]
  simp only [hp]

theorem runSteps_latched (cfg : OrbitConfig) (sl : List (String × ℚ × ℚ))
    (policy : List ℚ → List ℚ) (s : GenState) (p : ProtoMsg)
    (hp : s.safety_proto = some p) (hi : s.init_pos.isSome)
    (ctxs : List ContextModel) :
    runSteps cfg sl policy s ctxs = some (ctxs.map (fun _ => p), s) := by
  induction ctxs with
  | nil => rfl
  | cons c rest ih =>
    unfold runSteps
    rw [callStep_latched cfg sl policy s c p hp hi]
    simp [ih]

theorem callStep_nominal (cfg : OrbitConfig) (sl : List (String × ℚ × ℚ))
    (policy : List ℚ → List ℚ) (s : GenState) (ctx : ContextModel)
    (hp : s.safety_proto = none)
    (hc : check_safety sl (current_positions_map ctx.latest_state.position) = false) :
    callStep cfg sl policy s ctx =
      some (create_proto cfg s.count ctx.latest_state.acquisition_timestamp
              (post_process_action_to_spot cfg s.count
                (policy (collect_inputs cfg s.last_action ctx))),
            { cacheInit s ctx with
                triggered_safety := false
                last_action := policy (collect_inputs cfg s.last_action ctx)
                count := s.count + 1 },
            ctx.count + 1) := by
  unfold callStep
  simp only [cacheInit_safety_proto, cacheInit_last_action, cacheInit_count, hp, hc]
  simp [hc]

theorem callStep_latch_trigger (cfg : OrbitConfig) (sl : List (String × ℚ × ℚ))
    (policy : List ℚ → List ℚ) (s : GenState) (ctx : ContextModel)
    (hold : List ℚ) (hp : s.safety_proto = none)
    (hc : check_safety sl (current_positions_map ctx.latest_state.position) = true)
    (hh : holdPos (current_positions_map ctx.latest_state.position) = some hold) :
    callStep cfg sl policy s ctx =
      some (create_proto cfg s.count ctx.latest_state.acquisition_timestamp hold,
            { cacheInit s ctx with
                triggered_safety := true
                safety_proto :=
                  some (create_proto cfg s.count
                          ctx.latest_state.acquisition_timestamp hold) },
            ctx.count) := by
  unfold callStep
  simp only [cacheInit_safety_proto, cacheInit_last_action, cacheInit_count, hp, hc, hh]
  simp [hc, hh]

/-! ## Helper lemmas about `check_safety` and `holdPosFrom` -/

theorem not_inrange_iff (x : Option ℚ) (a b : ℚ) :
    (¬ ∃ v, x = some v ∧ a ≤ v ∧ v ≤ b) ↔
      (x = none ∨ ∃ v, x = some v ∧ (v < a ∨ b < v)) := by
  cases x with
  | none => simp
  | some v0 =>
    simp only [Option.some.injEq, reduceCtorEq, false_or]
    constructor
    · intro h
      refine ⟨v0, rfl, ?_⟩
      by_contra hcon
      push_neg at hcon
      exact h ⟨v0, rfl, hcon.1, hcon.2⟩
    · rintro ⟨v, hveq, hv⟩ ⟨w, hw, hw1, hw2⟩
      obtain rfl : v0 = v := hveq
      obtain rfl : v0 = w := hw
      rcases hv with h | h
      · exact absurd hw1 (not_le_of_lt h)
      · exact absurd hw2 (not_le_of_lt h)

theorem check_safety_eq_false_iff (table : List (String × ℚ × ℚ))
    (m : String → Option ℚ) :
    check_safety table m = false ↔
      ∀ e ∈ table, ∃ v, m e.1 = some v ∧ e.2.1 ≤ v ∧ v ≤ e.2.2 := by
  induction table with
  | nil => simp [check_safety]
  | cons e rest ih =>
    obtain ⟨name, mn, mx⟩ := e
    rw [check_safety]
    cases hm : m name with
    | none => simp [hm]
    | some v =>
      by_cases hv : v < mn ∨ v > mx
      · simp only [if_pos hv]
        simp only [Bool.true_eq_false, false_iff]
        intro hall
        obtain ⟨w, hw, hw1, hw2⟩ := hall (name, mn, mx) (List.mem_cons_self _ _)
        obtain rfl : v = w := by rw [hm] at hw; injection hw
        rcases hv with h | h
        · exact absurd hw1 (not_le_of_lt h)
        · exact absurd hw2 (not_le_of_lt h)
      · push_neg at hv
        simp only [if_neg (by push_neg; exact hv : ¬(v < mn ∨ v > mx))]
        rw [ih]
        constructor
        · intro hall f hf
          rcases List.mem_cons.1 hf with rfl | hf'
          · exact ⟨v, hm, hv.1, hv.2⟩
          · exact hall f hf'
        · intro hall f hf
          exact hall f (List.mem_cons_of_mem _ hf)

theorem check_safety_eq_true_iff (table : List (String × ℚ × ℚ))
    (m : String → Option ℚ) :
    check_safety table m = true ↔
      ∃ e ∈ table, m e.1 = none ∨
        ∃ v, m e.1 = some v ∧ (v < e.2.1 ∨ e.2.2 < v) := by
  have hbool : (check_safety table m = true) ↔ ¬ (check_safety table m = false) := by
    cases check_safety table m <;> simp
  rw [hbool, check_safety_eq_false_iff]
  simp only [not_forall, Classical.not_imp]
  constructor
  · rintro ⟨e, he, hne⟩
    exact ⟨e, he, (not_inrange_iff (m e.1) e.2.1 e.2.2).1 hne⟩
  · rintro ⟨e, he, h⟩
    exact ⟨e, he, (not_inrange_iff (m e.1) e.2.1 e.2.2).2 h⟩

theorem check_safety_head_violation (name : String) (mn mx : ℚ)
    (rest : List (String × ℚ × ℚ)) (m : String → Option ℚ)
    (h : m name = none ∨ ∃ v, m name = some v ∧ (v < mn ∨ mx < v)) :
    check_safety ((name, mn, mx) :: rest) m = true := by
  rcases h with h | ⟨v, hv, hlt⟩
  · rw [check_safety, h]
  · rw [check_safety, hv]
    show (if v < mn ∨ v > mx then true else check_safety rest m) = true
    exact if_pos hlt

theorem holdPosFrom_spec (m : String → Option ℚ) :
    ∀ (names : List String) (vs : List ℚ), holdPosFrom m names = some vs →
      ∀ (i : ℕ) (n : String), names[i]? = some n → vs[i]? = m n := by
  intro names
  induction names with
  | nil =>
    intro vs _ i n hn
    simp at hn
  | cons a rest ih =>
    intro vs h i n hn
    rw [holdPosFrom] at h
    cases hm : m a with
    | none => rw [hm] at h; exact Option.noConfusion h
    | some v =>
      rw [hm] at h
      cases hr : holdPosFrom m rest with
      | none => rw [hr] at h; exact Option.noConfusion h
      | some vs' =>
        rw [hr] at h
        obtain rfl : v :: vs' = vs := by injection h
        cases i with
        | zero =>
          obtain rfl : a = n := by simpa using hn
          simp [hm]
        | succ j =>
          simp only [List.getElem?_cons_succ] at hn ⊢
          exact ih vs' hr j n hn

/-! ## Claim C2 -/

/-- C2: the safety check fails exactly when some joint monitored by the safe
limit table has a missing current value or a value strictly below its min or
strictly above its max; it passes exactly when every monitored joint is
present and within `[min, max]`; and a violation at the head of the table
short-circuits (the result is `true` for every possible tail). -/
theorem check_safety_pass_fail_characterisation
    (table : List (String × ℚ × ℚ)) (m : String → Option ℚ) :
    (check_safety table m = false ↔
      ∀ e ∈ table, ∃ v, m e.1 = some v ∧ e.2.1 ≤ v ∧ v ≤ e.2.2) ∧
    (check_safety table m = true ↔
      ∃ e ∈ table, m e.1 = none ∨
        ∃ v, m e.1 = some v ∧ (v < e.2.1 ∨ e.2.2 < v)) ∧
    (∀ name mn mx rest,
      (m name = none ∨ ∃ v, m name = some v ∧ (v < mn ∨ mx < v)) →
      check_safety ((name, mn, mx) :: rest) m = true) :=
  ⟨check_safety_eq_false_iff table m, check_safety_eq_true_iff table m,
   fun name mn mx rest h => check_safety_head_violation name mn mx rest m h⟩

theorem check_safety_pass_fail_characterisation_witness :
    check_safety [("fl_hx", (0 : ℚ), (1 : ℚ))] (fun _ => some 5) = true :=
  (check_safety_pass_fail_characterisation [("fl_hx", 0, 1)]
      (fun _ => some 5)).2.2 "fl_hx" 0 1 []
    (Or.inr ⟨5, rfl, Or.inr (by norm_num)⟩)

/-! ## Claim C1 -/

/-- C1: once the safety latch has been entered (the cached terminal command
`p` is set), any invocation — for every policy and every context — returns
the cached command unchanged and leaves the generator state (hence the
latch) untouched; iterating over arbitrarily many further contexts returns
a list of bit-identical copies of `p`. -/
theorem safety_latch_is_terminal (cfg : OrbitConfig)
    (sl : List (String × ℚ × ℚ)) (policy : List ℚ → List ℚ) (s : GenState)
    (ctx : ContextModel) (p : ProtoMsg)
    (hp : s.safety_proto = some p) (hi : s.init_pos.isSome) :
    callStep cfg sl policy s ctx = some (p, s, ctx.count) ∧
    ∀ ctxs : List ContextModel,
      runSteps cfg sl policy s ctxs = some (ctxs.map (fun _ => p), s) :=
  ⟨callStep_latched cfg sl policy s ctx p hp hi,
   fun ctxs => runSteps_latched cfg sl policy s p hp hi ctxs⟩

theorem safety_latch_is_terminal_witness :
    callStep cfg0 sl0 policy0 sLatched ctxSafe = some (pCached, sLatched, 0) ∧
    runSteps cfg0 sl0 policy0 sLatched [ctxSafe, ctxBad] =
      some ([pCached, pCached], sLatched) := by
  have h := safety_latch_is_terminal cfg0 sl0 policy0 sLatched ctxSafe pCached
    rfl rfl
  exact ⟨h.1, h.2 [ctxSafe, ctxBad]⟩

/-! ## Claim C4 -/

/-- C4 counterexample: at hard limits `[0, 2]` with both margins equal to
`1` — values inside the claimed margin domain `(0, 1]` — the computed
interval coincides with the hard interval, so it is *not* a strict subset
of `[hard_lower, hard_upper]` as the claim states. -/
theorem safe_limits_strict_subset_counterexample :
    (0 : ℚ) < 2 ∧ (0 : ℚ) < 1 ∧ (1 : ℚ) ≤ 1 ∧
    safe_entry 0 2 1 1 = (0, 2) ∧
    ¬ (Set.Icc (safe_entry 0 2 1 1).1 (safe_entry 0 2 1 1).2 ⊂
        Set.Icc (0 : ℚ) 2) := by
  have h : safe_entry 0 2 1 1 = ((0 : ℚ), (2 : ℚ)) := by
    norm_num [safe_entry]
  refine ⟨by norm_num, by norm_num, le_refl 1, h, ?_⟩
  rw [h]
  intro hss
  exact hss.2 hss.1

/-- C4 (amended): for hard limits `hard_lower < hard_upper` and margins in
`(0, 1]`, the computed `[min_val, max_val]` is always a subset of
`[hard_lower, hard_upper]`; it is a *strict* subset whenever at least one
margin is `< 1`; with margin `= 1` on both sides it reproduces the hard
limits exactly; and every margin in the checked-in `JOINT_SOFT_LIMITS`
table lies in `(0, 1]`. -/
theorem safe_limits_margin_subset (lower upper mm mM : ℚ)
    (hlt : lower < upper) (hmm0 : 0 < mm) (hmm1 : mm ≤ 1)
    (hmM0 : 0 < mM) (hmM1 : mM ≤ 1) :
    Set.Icc (safe_entry lower upper mm mM).1 (safe_entry lower upper mm mM).2 ⊆
      Set.Icc lower upper ∧
    ((mm < 1 ∨ mM < 1) →
      Set.Icc (safe_entry lower upper mm mM).1
        (safe_entry lower upper mm mM).2 ⊂ Set.Icc lower upper) ∧
    (mm = 1 → mM = 1 → safe_entry lower upper mm mM = (lower, upper)) ∧
    (∀ e ∈ JOINT_SOFT_LIMITS, 0 < e.2.1 ∧ e.2.1 ≤ 1 ∧ 0 < e.2.2 ∧ e.2.2 ≤ 1) := by
  have hfst : (safe_entry lower upper mm mM).1 =
      (lower + upper) / 2 - mm * (upper - lower) / 2 := rfl
  have hsnd : (safe_entry lower upper mm mM).2 =
      (lower + upper) / 2 + mM * (upper - lower) / 2 := rfl
  have hlo : lower ≤ (safe_entry lower upper mm mM).1 := by
    rw [hfst]; nlinarith
  have hhi : (safe_entry lower upper mm mM).2 ≤ upper := by
    rw [hsnd]; nlinarith
  have hsub : Set.Icc (safe_entry lower upper mm mM).1
      (safe_entry lower upper mm mM).2 ⊆ Set.Icc lower upper :=
    Set.Icc_subset_Icc hlo hhi
  refine ⟨hsub, ?_, ?_, ?_⟩
  · intro hm
    rw [Set.ssubset_iff_of_subset hsub]
    rcases hm with hm | hm
    · have hlo' : lower < (safe_entry lower upper mm mM).1 := by
        rw [hfst]; nlinarith
      exact ⟨lower, Set.mem_Icc.2 ⟨le_refl _, le_of_lt hlt⟩,
        fun hmem => absurd (Set.mem_Icc.1 hmem).1 (not_le_of_lt hlo')⟩
    · have hhi' : (safe_entry lower upper mm mM).2 < upper := by
        rw [hsnd]; nlinarith
      exact ⟨upper, Set.mem_Icc.2 ⟨le_of_lt hlt, le_refl _⟩,
        fun hmem => absurd (Set.mem_Icc.1 hmem).2 (not_le_of_lt hhi')⟩
  · intro h1 h2
    subst h1
    subst h2
    simp only [safe_entry, Prod.ext_iff]
    constructor <;> ring
  · intro e he
    fin_cases he <;> norm_num

theorem safe_limits_margin_subset_witness :
    (Set.Icc (safe_entry 0 2 (1/2) (1/2)).1 (safe_entry 0 2 (1/2) (1/2)).2 ⊂
      Set.Icc (0 : ℚ) 2) ∧ safe_entry 0 2 1 1 = (0, 2) := by
  have h := safe_limits_margin_subset 0 2 (1/2) (1/2) (by norm_num)
    (by norm_num) (by norm_num) (by norm_num) (by norm_num)
  have h2 := safe_limits_margin_subset 0 2 1 1 (by norm_num) (by norm_num)
    (le_refl 1) (by norm_num) (le_refl 1)
  exact ⟨h.2.1 (Or.inl (by norm_num)), h2.2.2.1 rfl rfl⟩

/-! ## Claim C8 -/

/-- C8: the URDF hard-limit parser never reports a fatal error.  Every
exception raised inside its loop — missing `<limit>` tag, missing
`lower`/`upper` attribute, and the unconditional `TypeError` from
string-indexing the limit `Element` — is swallowed by the blanket
`except`, which returns the empty table `{}`; a missing file also returns
`{}`.  Constructing the safe-limit table from the resulting empty
hard-limit table yields an empty table, so runtime safety monitoring is
silently disabled rather than startup being aborted. -/
theorem parse_urdf_limits_never_fatal :
    (∀ (fileExists : Bool) (joints : List UrdfJoint),
        parse_urdf_limits fileExists joints = []) ∧
    parse_urdf_limits true [⟨"fl_hx", some ⟨none, some 1, some 1⟩⟩] = [] ∧
    generate_safe_limits [] = [] := by
  have hj : ∀ j : UrdfJoint, ∃ msg, parse_joint j = .error msg := by
    rintro ⟨name, _ | ⟨_ | lo, _ | up, tv⟩⟩ <;> exact ⟨_, rfl⟩
  have hmain : ∀ (e : Bool) (js : List UrdfJoint), parse_urdf_limits e js = [] := by
    intro e js
    cases e with
    | false => rfl
    | true =>
      cases js with
      | nil => rfl
      | cons j rest =>
        obtain ⟨msg, hmsg⟩ := hj j
        simp [parse_urdf_limits, parse_joints, hmsg, Except.bind]
  exact ⟨hmain, hmain true _, rfl⟩

/-! ## Claim C3 -/

/-- C3: on any invocation where the safety check fails, the generator
latches (the returned command is cached as the terminal command) and the
returned command's target positions are exactly the currently measured
joint positions of the latest snapshot, in native base joint order.  The
conclusion is independent of the universally quantified `policy` (no
policy-derived target) and of the cached initial pose. -/
theorem latch_command_holds_measured_positions (cfg : OrbitConfig)
    (sl : List (String × ℚ × ℚ)) (policy : List ℚ → List ℚ) (s : GenState)
    (ctx : ContextModel) (hold : List ℚ)
    (hp : s.safety_proto = none)
    (hc : check_safety sl (current_positions_map ctx.latest_state.position) = true)
    (hh : holdPos (current_positions_map ctx.latest_state.position) = some hold) :
    ∃ proto s',
      callStep cfg sl policy s ctx = some (proto, s', ctx.count) ∧
      s'.safety_proto = some proto ∧
      proto.position = hold ∧
      ∀ (i : ℕ) (name : String),
        ORDERED_JOINT_NAMES_SPOT_BASE[i]? = some name →
        proto.position[i]? = current_positions_map ctx.latest_state.position name := by
  refine ⟨_, _, callStep_latch_trigger cfg sl policy s ctx hold hp hc hh,
    rfl, rfl, ?_⟩
  intro i name hn
  exact holdPosFrom_spec _ _ hold hh i name hn

theorem latch_command_holds_measured_positions_witness :
    ∃ proto s',
      callStep cfg0 sl0 policy0 initGenState ctxBad = some (proto, s', 0) ∧
      s'.safety_proto = some proto ∧
      proto.position = (639967/1000000 : ℚ) :: List.replicate 11 0 ∧
      ∀ (i : ℕ) (name : String),
        ORDERED_JOINT_NAMES_SPOT_BASE[i]? = some name →
        proto.position[i]? =
          current_positions_map ctxBad.latest_state.position name :=
  latch_command_holds_measured_positions cfg0 sl0 policy0 initGenState ctxBad
    ((639967/1000000 : ℚ) :: List.replicate 11 0) rfl
    (by
      norm_num [check_safety, sl0, generate_safe_limits, JOINT_SOFT_LIMITS, jl0,
        safe_entry, current_positions_map, ORDERED_JOINT_NAMES_SPOT,
        ORDERED_JOINT_NAMES_SPOT_BASE, ORDERED_JOINT_NAMES_SPOT_ARM, ctxBad,
        snapBad, snapSafe, List.lookup]) rfl

/-! ## Claim C10 -/

/-- C10: on the latch-triggering invocation the generator's cycle counter,
the shared context counter and the cached last-action are unchanged; the
cached terminal command's `user_command_key` is the counter value at latch
time, and it carries gain fields exactly when the latch occurred while the
counter was still 1 (i.e. on the very first invocation).  On every
invocation after the latch, state and counters are likewise untouched. -/
theorem latch_frame_conditions (cfg : OrbitConfig)
    (sl : List (String × ℚ × ℚ)) (policy : List ℚ → List ℚ) :
    (∀ s ctx hold, s.safety_proto = none →
      check_safety sl (current_positions_map ctx.latest_state.position) = true →
      holdPos (current_positions_map ctx.latest_state.position) = some hold →
      ∃ proto s',
        callStep cfg sl policy s ctx = some (proto, s', ctx.count) ∧
        s'.count = s.count ∧
        s'.last_action = s.last_action ∧
        s'.safety_proto = some proto ∧
        proto.user_command_key = s.count ∧
        (proto.gains ≠ none ↔ s.count = 1)) ∧
    (∀ s ctx p, s.safety_proto = some p → s.init_pos.isSome →
      callStep cfg sl policy s ctx = some (p, s, ctx.count)) := by
  constructor
  · intro s ctx hold hp hc hh
    refine ⟨_, _, callStep_latch_trigger cfg sl policy s ctx hold hp hc hh,
      by simp, by simp, rfl, rfl, ?_⟩
    by_cases h1 : s.count = 1 <;> simp [create_proto, h1]
  · intro s ctx p hp hi
    exact callStep_latched cfg sl policy s ctx p hp hi

theorem latch_frame_conditions_witness :
    (∃ proto s',
      callStep cfg0 sl0 policy0 initGenState ctxBad = some (proto, s', 0) ∧
      s'.count = 1 ∧
      s'.last_action = List.replicate 12 0 ∧
      s'.safety_proto = some proto ∧
      proto.user_command_key = 1 ∧
      (proto.gains ≠ none ↔ (1 : ℕ) = 1)) ∧
    callStep cfg0 sl0 policy0 sLatched ctxSafe = some (pCached, sLatched, 0) := by
  have h := latch_frame_conditions cfg0 sl0 policy0
  obtain ⟨proto, s', h1, h2, h3, h4, h5, h6⟩ :=
    h.1 initGenState ctxBad ((639967/1000000 : ℚ) :: List.replicate 11 0)
      rfl (by
      norm_num [check_safety, sl0, generate_safe_limits, JOINT_SOFT_LIMITS, jl0,
        safe_entry, current_positions_map, ORDERED_JOINT_NAMES_SPOT,
        ORDERED_JOINT_NAMES_SPOT_BASE, ORDERED_JOINT_NAMES_SPOT_ARM, ctxBad,
        snapBad, snapSafe, List.lookup]) rfl
  exact ⟨⟨proto, s', h1, h2, h3, h4, h5, h6⟩,
    h.2 sLatched ctxSafe pCached rfl rfl⟩

/-! ## Helper lemmas for action post-processing -/

theorem zipWith_mul_replicate (a : ℚ) :
    ∀ (n : ℕ) (l : List ℚ),
      List.zipWith (· * ·) (List.replicate n a) l =
        (l.take n).map (fun x => a * x)
  | 0, _ => by simp
  | _ + 1, [] => by simp
  | n + 1, x :: xs => by
    simp [List.replicate_succ, zipWith_mul_replicate a n xs]

theorem post_process_eq (cfg : OrbitConfig) (count : ℕ) (output : List ℚ) :
    post_process_action_to_spot cfg count output =
      reorder (List.zipWith (· + ·)
          ((output.take 12).map (fun x => rampScale count * (cfg.action_scale * x)))
          (joints_offsets_ordered cfg))
        (find_ordering ORDERED_JOINT_NAMES_BASE_ISAAC
          ORDERED_JOINT_NAMES_SPOT_BASE) := by
  simp only [post_process_action_to_spot, zipWith_mul_replicate]
  rw [List.take_of_length_le (by simp [List.length_take])]
  rw [List.map_map]
  rfl

theorem rampScale_one : rampScale 1 = 1/10 := by
  unfold rampScale
  norm_num [min_def]

theorem rampScale_ten : rampScale 10 = 1 := by
  unfold rampScale
  norm_num [min_def]

theorem rampScale_saturates (c : ℕ) (h : 10 ≤ c) : rampScale c = 1 := by
  unfold rampScale
  rw [min_eq_right]
  have hc : (10 : ℚ) ≤ (c : ℚ) := by exact_mod_cast h
  linarith

theorem post_process_cycle_one (cfg : OrbitConfig) (out : List ℚ) :
    post_process_action_to_spot cfg 1 out =
      post_process_action_to_spot cfg 10 (out.map (fun x => (1/10) * x)) := by
  rw [post_process_eq, post_process_eq, rampScale_one, rampScale_ten]
  congr 2
  rw [← List.map_take, List.map_map]
  apply List.map_congr_left
  intro x _
  show 1 / 10 * (cfg.action_scale * x) = 1 * (cfg.action_scale * (1 / 10 * x))
  ring

theorem post_process_saturated (cfg : OrbitConfig) (c : ℕ) (out : List ℚ)
    (h : 10 ≤ c) :
    post_process_action_to_spot cfg c out =
      post_process_action_to_spot cfg 10 out := by
  rw [post_process_eq, post_process_eq, rampScale_saturates c h, rampScale_ten]

/-! ## Claim C5 -/

/-- C5: the warm-up ramp factor is `min(0.1 * cycle_count, 1.0)`; the cycle
counter starts at 1 and is incremented exactly on the nominal path (and
unchanged on the latching and latched paths); the first nominal cycle emits
the action at 10% of its fully scaled magnitude, and every cycle from the
10th onward emits it fully scaled. -/
theorem warmup_ramp_behaviour :
    rampScale 1 = 1/10 ∧
    (∀ c : ℕ, 10 ≤ c → rampScale c = 1) ∧
    initGenState.count = 1 ∧
    (∀ cfg out, post_process_action_to_spot cfg 1 out =
      post_process_action_to_spot cfg 10 (out.map (fun x => (1/10) * x))) ∧
    (∀ cfg (c : ℕ) out, 10 ≤ c → post_process_action_to_spot cfg c out =
      post_process_action_to_spot cfg 10 out) ∧
    (∀ cfg sl policy s ctx, s.safety_proto = none →
      check_safety sl (current_positions_map ctx.latest_state.position) = false →
      ∃ proto s', callStep cfg sl policy s ctx = some (proto, s', ctx.count + 1) ∧
        s'.count = s.count + 1) ∧
    (∀ cfg sl policy s ctx hold, s.safety_proto = none →
      check_safety sl (current_positions_map ctx.latest_state.position) = true →
      holdPos (current_positions_map ctx.latest_state.position) = some hold →
      ∃ proto s', callStep cfg sl policy s ctx = some (proto, s', ctx.count) ∧
        s'.count = s.count) ∧
    (∀ cfg sl policy s ctx p, s.safety_proto = some p → s.init_pos.isSome →
      ∃ s', callStep cfg sl policy s ctx = some (p, s', ctx.count) ∧
        s'.count = s.count) := by
  refine ⟨rampScale_one, rampScale_saturates, rfl,
    post_process_cycle_one, fun cfg c out h => post_process_saturated cfg c out h,
    ?_, ?_, ?_⟩
  · intro cfg sl policy s ctx hp hc
    exact ⟨_, _, callStep_nominal cfg sl policy s ctx hp hc, by simp⟩
  · intro cfg sl policy s ctx hold hp hc hh
    exact ⟨_, _, callStep_latch_trigger cfg sl policy s ctx hold hp hc hh, by simp⟩
  · intro cfg sl policy s ctx p hp hi
    exact ⟨s, callStep_latched cfg sl policy s ctx p hp hi, rfl⟩

theorem warmup_ramp_behaviour_witness :
    rampScale 37 = 1 ∧ rampScale 1 = 1/10 ∧
    (∃ proto s', callStep cfg0 [] policy0 initGenState ctxSafe =
        some (proto, s', 1) ∧ s'.count = 2) :=
  ⟨warmup_ramp_behaviour.2.1 37 (by norm_num),
   warmup_ramp_behaviour.1,
   warmup_ramp_behaviour.2.2.2.2.2.1 cfg0 [] policy0 initGenState ctxSafe rfl rfl⟩

/-! ## Claim C6 -/

theorem callStep_latch_keyerror (cfg : OrbitConfig)
    (sl : List (String × ℚ × ℚ)) (policy : List ℚ → List ℚ) (s : GenState)
    (ctx : ContextModel) (hp : s.safety_proto = none)
    (hc : check_safety sl (current_positions_map ctx.latest_state.position) = true)
    (hh : holdPos (current_positions_map ctx.latest_state.position) = none) :
    callStep cfg sl policy s ctx = none := by
  unfold callStep
  simp only [cacheInit_safety_proto, hp, hc, hh]
  simp [hc, hh]

/-- C6 counterexample: in a session whose first invocation trips the safety
check, the first emitted command carries the gain fields — and so does the
second emitted command, because the latched generator re-emits the cached
terminal command verbatim.  This contradicts the claim that every command
emitted after the first omits the gain fields entirely. -/
theorem gains_on_second_emitted_command_counterexample :
    ((callStep cfg0 slInt policy0 initGenState ctxHot).map
      (fun r => r.1.gains.isSome) = some true) ∧
    ((callStep cfg0 slInt policy0 initGenState ctxHot).bind (fun r =>
      (callStep cfg0 slInt policy0 r.2.1 ctxHot).map
        (fun r2 => r2.1.gains.isSome)) = some true) := by
  decide

/-- C6 (amended): every *created* command carries the gain fields exactly
when the generator cycle counter is 1 at creation time, so the first command
of a session carries gains and every command created on a later cycle
(counter ≥ 2) omits them.  An invocation of a latched generator does not
create a command: it re-emits the cached terminal command verbatim (which
carries gains exactly when the latch occurred on the very first
invocation). -/
theorem gains_only_on_first_created_command (cfg : OrbitConfig) :
    (∀ (count : ℕ) (ts : ℚ) (pos : List ℚ),
      ((create_proto cfg count ts pos).gains ≠ none ↔ count = 1)) ∧
    (∀ sl policy s ctx, s.count = 1 → s.safety_proto = none →
      check_safety sl (current_positions_map ctx.latest_state.position) = false →
      ∃ proto s',
        callStep cfg sl policy s ctx = some (proto, s', ctx.count + 1) ∧
        proto.gains ≠ none ∧ s'.count = 2) ∧
    (∀ sl policy s ctx, 2 ≤ s.count → s.safety_proto = none →
      ∀ proto s' n, callStep cfg sl policy s ctx = some (proto, s', n) →
        proto.gains = none) ∧
    (∀ sl policy s ctx p, s.safety_proto = some p → s.init_pos.isSome →
      callStep cfg sl policy s ctx = some (p, s, ctx.count)) := by
  refine ⟨?_, ?_, ?_, ?_⟩
  · intro count ts pos
    by_cases h1 : count = 1 <;> simp [create_proto, h1]
  · intro sl policy s ctx hcount hp hc
    refine ⟨_, _, callStep_nominal cfg sl policy s ctx hp hc, ?_, ?_⟩
    · simp [create_proto, hcount]
    · simp [hcount]
  · intro sl policy s ctx hcount hp proto s' n hstep
    have hne : s.count ≠ 1 := by omega
    cases hcb : check_safety sl (current_positions_map ctx.latest_state.position) with
    | true =>
      cases hh : holdPos (current_positions_map ctx.latest_state.position) with
      | none =>
        rw [callStep_latch_keyerror cfg sl policy s ctx hp hcb hh] at hstep
        exact Option.noConfusion hstep
      | some hold =>
        rw [callStep_latch_trigger cfg sl policy s ctx hold hp hcb hh] at hstep
        simp only [Option.some.injEq, Prod.mk.injEq] at hstep
        obtain ⟨hproto, -⟩ := hstep
        rw [← hproto]
        simp [create_proto, hne]
    | false =>
      rw [callStep_nominal cfg sl policy s ctx hp hcb] at hstep
      simp only [Option.some.injEq, Prod.mk.injEq] at hstep
      obtain ⟨hproto, -⟩ := hstep
      rw [← hproto]
      simp [create_proto, hne]
  · intro sl policy s ctx p hp hi
    exact callStep_latched cfg sl policy s ctx p hp hi

theorem gains_only_on_first_created_command_witness :
    (∃ proto s',
      callStep cfg0 [] policy0 initGenState ctxSafe = some (proto, s', 1) ∧
      proto.gains ≠ none ∧ s'.count = 2) ∧
    (∀ proto s' n,
      callStep cfg0 [] policy0 sCount2 ctxSafe = some (proto, s', n) →
      proto.gains = none) ∧
    ((create_proto cfg0 2 0 []).gains ≠ none ↔ (2 : ℕ) = 1) := by
  have h := gains_only_on_first_created_command cfg0
  exact ⟨h.2.1 [] policy0 initGenState ctxSafe rfl rfl rfl,
    fun proto s' n hstep =>
      h.2.2.1 [] policy0 sCount2 ctxSafe (by norm_num [sCount2]) rfl proto s' n hstep,
    h.1 2 0 []⟩

/-! ## Claim C7 -/

theorem zipWith_add_replicate_zero :
    ∀ (n : ℕ) (l : List ℚ),
      List.zipWith (· + ·) (List.replicate n (0 : ℚ)) l = l.take n
  | 0, _ => by simp
  | _ + 1, [] => by simp
  | n + 1, x :: xs => by
    simp [List.replicate_succ, zipWith_add_replicate_zero n xs]

theorem post_process_zero_action (cfg : OrbitConfig) (count : ℕ) :
    post_process_action_to_spot cfg count (List.replicate 12 0) =
      ORDERED_JOINT_NAMES_SPOT_BASE.map cfg.default_joints := by
  rw [post_process_eq]
  have hz : ((List.replicate 12 (0 : ℚ)).take 12).map
      (fun x => rampScale count * (cfg.action_scale * x)) =
      List.replicate 12 (0 : ℚ) := by
    simp
  rw [hz, zipWith_add_replicate_zero]
  rw [List.take_of_length_le (by
    simp [joints_offsets_ordered, dict_to_list, ORDERED_JOINT_NAMES_BASE_ISAAC])]
  rfl

/-- C7: on a nominal invocation (safety check passes) where the inference
backend returns the all-zero action vector and `action_scale = 1`, the
emitted command's target positions are exactly the configured per-joint
default/offset positions, read off in the robot's native base joint order —
the warm-up ramp factor multiplies a zero action before the offset is added
and so has no effect. -/
theorem zero_action_emits_default_offsets (cfg : OrbitConfig)
    (sl : List (String × ℚ × ℚ)) (policy : List ℚ → List ℚ) (s : GenState)
    (ctx : ContextModel)
    (hp : s.safety_proto = none)
    (hc : check_safety sl (current_positions_map ctx.latest_state.position) = false)
    (_hscale : cfg.action_scale = 1)
    (hz : policy (collect_inputs cfg s.last_action ctx) = List.replicate 12 0) :
    ∃ proto s',
      callStep cfg sl policy s ctx = some (proto, s', ctx.count + 1) ∧
      proto.position = ORDERED_JOINT_NAMES_SPOT_BASE.map cfg.default_joints := by
  refine ⟨_, _, callStep_nominal cfg sl policy s ctx hp hc, ?_⟩
  show post_process_action_to_spot cfg s.count
    (policy (collect_inputs cfg s.last_action ctx)) = _
  rw [hz, post_process_zero_action]

theorem zero_action_emits_default_offsets_witness :
    ∃ proto s',
      callStep cfg0 sl0 policy0 initGenState ctxSafe = some (proto, s', 1) ∧
      proto.position = ORDERED_JOINT_NAMES_SPOT_BASE.map cfg0.default_joints :=
  zero_action_emits_default_offsets cfg0 sl0 policy0 initGenState ctxSafe rfl
    (by
      norm_num [check_safety, sl0, generate_safe_limits, JOINT_SOFT_LIMITS, jl0,
        safe_entry, current_positions_map, ORDERED_JOINT_NAMES_SPOT,
        ORDERED_JOINT_NAMES_SPOT_BASE, ORDERED_JOINT_NAMES_SPOT_ARM, ctxSafe,
        snapSafe, List.lookup])
    rfl rfl

/-! ## Claim C9 -/

/-- C9: for any two duplicate-free orderings of the same name set,
`find_ordering` produces a permutation `perm` with
`target[i] = source[perm[i]]`, and applying the A-to-B remap followed by
the B-to-A remap to any array of matching length reproduces the array
exactly. -/
theorem joint_ordering_roundtrip (A B : List String) (arr : List ℚ)
    (hA : A.Nodup) (hperm : A.Perm B) (hlen : arr.length = A.length) :
    (∀ (i : ℕ), i < B.length →
      A.getD ((find_ordering A B).getD i 0) "" = B.getD i "") ∧
    reorder (reorder arr (find_ordering A B)) (find_ordering B A) = arr := by
  have hB : B.Nodup := (hperm.nodup_iff).1 hA
  have hlenAB : A.length = B.length := hperm.length_eq
  constructor
  · intro i h
    have hmemA : B[i] ∈ A := hperm.mem_iff.2 (B.getElem_mem h)
    have hidx : List.indexOf B[i] A < A.length := List.indexOf_lt_length.2 hmemA
    have h1 : (find_ordering A B).getD i 0 = List.indexOf B[i] A := by
      rw [find_ordering, List.getD_eq_getElem _ _ (by simpa using h)]
      simp
    rw [h1, List.getD_eq_getElem _ _ hidx, List.getD_eq_getElem _ _ h,
        List.getElem_indexOf hidx]
  · apply List.ext_getElem
    · simp [reorder, find_ordering, hlen, hlenAB]
    · intro j h1 h2
      have hjA : j < A.length := hlen ▸ h2
      have hmemB : A[j] ∈ B := hperm.mem_iff.1 (A.getElem_mem hjA)
      have hkB : List.indexOf A[j] B < B.length := List.indexOf_lt_length.2 hmemB
      simp only [reorder, find_ordering, List.getElem_map]
      have hkX : List.indexOf A[j] B <
          (List.map (fun i => arr.getD i 0)
            (List.map (fun n => List.indexOf n A) B)).length := by
        simpa using hkB
      rw [List.getD_eq_getElem _ _ hkX]
      simp only [List.getElem_map]
      rw [List.getElem_indexOf hkB, List.indexOf_getElem hA j hjA]
      exact List.getD_eq_getElem arr 0 h2

theorem joint_ordering_roundtrip_witness :
    reorder (reorder [1, 2, 3, 4, 5, 6, 7, 8, 9, 10, 11, 12]
        (find_ordering ORDERED_JOINT_NAMES_BASE_ISAAC
          ORDERED_JOINT_NAMES_SPOT_BASE))
      (find_ordering ORDERED_JOINT_NAMES_SPOT_BASE
        ORDERED_JOINT_NAMES_BASE_ISAAC) =
      [1, 2, 3, 4, 5, 6, 7, 8, 9, 10, 11, 12] :=
  (joint_ordering_roundtrip ORDERED_JOINT_NAMES_BASE_ISAAC
      ORDERED_JOINT_NAMES_SPOT_BASE [1, 2, 3, 4, 5, 6, 7, 8, 9, 10, 11, 12]
      (by decide) (by decide) (by decide)).2

end SpotRL
